import Mathlib

/-!
Verification of the `IndustrialWasteExchange` registry contract
(src/blockchain/IndustrialWasteExchange.sol).

The contract is embedded shallowly: addresses and uint256 values are `Nat`
(the zero address is `0`), the storage mapping is a total function with the
Solidity zero-value as default, and every external function is a pure Lean
function returning `Except Err _` — an `Except.error` is a revert, which in
the EVM rolls back every write of the call, so a reverted call yields no
successor state.  The OpenZeppelin `nonReentrant` modifier is embedded as an
explicit status flag (`locked`) checked and set around the guarded body, and
`onlyOwner` as an explicit comparison of the caller with the stored owner.
-/

namespace WasteExchange

/-- The three lifecycle states of a waste batch (`enum WasteStatus`). -/
inductive WasteStatus
  | CREATED
  | COMMITTED
  | TRANSFERRED
deriving DecidableEq, Repr

/-- `struct WasteBatch`.  Addresses are `Nat`, `address(0)` is `0`. -/
@[ext] structure WasteBatch where
  batchId : Nat
  category : String
  quantity : Nat
  currentOwner : Nat
  committedBuyer : Nat
  status : WasteStatus
  createdAt : Nat
deriving DecidableEq, Repr

/-- The Solidity zero-value of `WasteBatch`: every mapping slot holds this
until it is written (enum default is the first member, `CREATED`). -/
def emptyBatch : WasteBatch :=
  { batchId := 0, category := "", quantity := 0, currentOwner := 0
    committedBuyer := 0, status := .CREATED, createdAt := 0 }

/-- The contract's storage: the `Ownable` owner (administrator), the
`nextBatchId` counter, the `wasteBatches` mapping, and the
`ReentrancyGuard` status flag. -/
@[ext] structure RState where
  owner : Nat
  nextBatchId : Nat
  wasteBatches : Nat → WasteBatch
  locked : Bool

/-- The error taxonomy of the spec; each constructor corresponds to one
revert site of the contract.  `MissingBuyerError` is the defensive
`require(buyer != address(0))` inside `transferWasteBatch`;
`ReentrancyError` is the `ReentrancyGuard` rejection of a nested call. -/
inductive Err
  | AuthorizationError
  | InvalidQuantityError
  | InvalidAddressError
  | NotFoundError
  | InvalidStateError
  | SelfDealingError
  | MissingBuyerError
  | ReentrancyError
deriving DecidableEq, Repr

/-- `createWasteBatch(category, quantity, seller)` called by `caller` at
block timestamp `time`.  The `onlyOwner` modifier runs first, then the two
`require`s, then the batch is stored and the counter incremented. -/
def createWasteBatch (caller : Nat) (category : String) (quantity : Nat)
    (seller : Nat) (time : Nat) (s : RState) : Except Err (Nat × RState) :=
  if caller ≠ s.owner then .error .AuthorizationError
  else if ¬ quantity > 0 then .error .InvalidQuantityError
  else if seller = 0 then .error .InvalidAddressError
  else
    let batchId := s.nextBatchId
    let b : WasteBatch :=
      { batchId := batchId, category := category, quantity := quantity
        currentOwner := seller, committedBuyer := 0, status := .CREATED
        createdAt := time }
    .ok (batchId,
      { s with
        wasteBatches := fun i => if i = batchId then b else s.wasteBatches i
        nextBatchId := s.nextBatchId + 1 })

/-- The OpenZeppelin `nonReentrant` modifier: reject if the guard is held,
otherwise run the body with the guard held and release it afterwards.
A revert of the body rolls the flag back together with everything else. -/
def nonReentrant (body : RState → Except Err RState) (s : RState) :
    Except Err RState :=
  if s.locked then .error .ReentrancyError
  else
    match body { s with locked := true } with
    | .error e => .error e
    | .ok s' => .ok { s' with locked := false }

/-- The body of `commitToPurchase(batchId)` (inside `nonReentrant`):
existence, `CREATED` status and no-self-dealing checks, then the two
writes setting `committedBuyer` and `status`. -/
def commitBody (caller batchId : Nat) (s : RState) : Except Err RState :=
  let batch := s.wasteBatches batchId
  if batch.batchId = 0 then .error .NotFoundError
  else if batch.status ≠ .CREATED then .error .InvalidStateError
  else if caller = batch.currentOwner then .error .SelfDealingError
  else
    .ok { s with
      wasteBatches := fun i =>
        if i = batchId then
          { batch with committedBuyer := caller, status := .COMMITTED }
        else s.wasteBatches i }

/-- `commitToPurchase(batchId)` called by `caller` (= `msg.sender`). -/
def commitToPurchase (caller batchId : Nat) (s : RState) :
    Except Err RState :=
  nonReentrant (commitBody caller batchId) s

/-- The body of `transferWasteBatch(batchId)` (inside `nonReentrant`):
existence, `COMMITTED` status and owner checks, the defensive buyer check,
then the two writes setting `currentOwner` and `status`. -/
def transferBody (caller batchId : Nat) (s : RState) : Except Err RState :=
  let batch := s.wasteBatches batchId
  if batch.batchId = 0 then .error .NotFoundError
  else if batch.status ≠ .COMMITTED then .error .InvalidStateError
  else if caller ≠ batch.currentOwner then .error .AuthorizationError
  else
    let buyer := batch.committedBuyer
    if buyer = 0 then .error .MissingBuyerError
    else
      .ok { s with
        wasteBatches := fun i =>
          if i = batchId then
            { batch with currentOwner := buyer, status := .TRANSFERRED }
          else s.wasteBatches i }

/-- `transferWasteBatch(batchId)` called by `caller` (= `msg.sender`);
this is the spec's `finalizeTransfer`. -/
def transferWasteBatch (caller batchId : Nat) (s : RState) :
    Except Err RState :=
  nonReentrant (transferBody caller batchId) s

/-- `getWasteBatch(batchId)`: a `view` function — it is embedded as a pure
function of the state and by construction cannot mutate it. -/
def getWasteBatch (batchId : Nat) (s : RState) : Except Err WasteBatch :=
  if (s.wasteBatches batchId).batchId = 0 then .error .NotFoundError
  else .ok (s.wasteBatches batchId)

/-- One external call to a state-changing entry point of the contract. -/
inductive Op
  | create (caller : Nat) (category : String) (quantity : Nat)
      (seller : Nat) (time : Nat)
  | commit (caller : Nat) (batchId : Nat)
  | transfer (caller : Nat) (batchId : Nat)

/-- The `msg.sender` of a call. -/
def Op.caller : Op → Nat
  | .create c _ _ _ _ => c
  | .commit c _ => c
  | .transfer c _ => c

/-- Run one call, keeping only the successor state. -/
def applyOp (op : Op) (s : RState) : Except Err RState :=
  match op with
  | .create c cat q sel t => (createWasteBatch c cat q sel t s).map (·.2)
  | .commit c id => commitToPurchase c id s
  | .transfer c id => transferWasteBatch c id s

/-- The state after a call: a revert (an `Except.error`) rolls back every
write, so the state is unchanged. -/
def exec (s : RState) (op : Op) : RState :=
  match applyOp op s with
  | .ok s' => s'
  | .error _ => s

/-- The constructor: `Ownable(msg.sender)` stores the deployer as owner and
`nextBatchId` is set to `1`; every mapping slot holds the zero-value. -/
def initState (admin : Nat) : RState :=
  { owner := admin, nextBatchId := 1
    wasteBatches := fun _ => emptyBatch, locked := false }

/-- States reachable from deployment by external calls.  `msg.sender` of an
external call is never the zero address (an EVM guarantee), hence the
`op.caller ≠ 0` side condition. -/
inductive Reachable (admin : Nat) : RState → Prop
  | init : Reachable admin (initState admin)
  | step (s : RState) (op : Op) : Reachable admin s → op.caller ≠ 0 →
      Reachable admin (exec s op)

/-- `id` has been allocated by `createWasteBatch` in state `s`. -/
def allocated (s : RState) (id : Nat) : Prop :=
  1 ≤ id ∧ id < s.nextBatchId

instance (s : RState) (id : Nat) : Decidable (allocated s id) := by
  unfold allocated; infer_instance

/-- The successor state of a successful `createWasteBatch`. -/
def createSucc (cat : String) (q sel t : Nat) (s : RState) : RState :=
  { owner := s.owner
    nextBatchId := s.nextBatchId + 1
    wasteBatches := fun i =>
      if i = s.nextBatchId then
        { batchId := s.nextBatchId, category := cat, quantity := q
          currentOwner := sel, committedBuyer := 0, status := .CREATED
          createdAt := t }
      else s.wasteBatches i
    locked := s.locked }

/-- The successor state of a successful `commitToPurchase`. -/
def commitSucc (caller batchId : Nat) (s : RState) : RState :=
  { owner := s.owner
    nextBatchId := s.nextBatchId
    wasteBatches := fun i =>
      if i = batchId then
        { s.wasteBatches batchId with
          committedBuyer := caller, status := .COMMITTED }
      else s.wasteBatches i
    locked := false }

/-- The successor state of a successful `transferWasteBatch`. -/
def transferSucc (batchId : Nat) (s : RState) : RState :=
  { owner := s.owner
    nextBatchId := s.nextBatchId
    wasteBatches := fun i =>
      if i = batchId then
        { s.wasteBatches batchId with
          currentOwner := (s.wasteBatches batchId).committedBuyer
          status := .TRANSFERRED }
      else s.wasteBatches i
    locked := false }

/-- A concrete deployment by administrator `5`. -/
def sInit : RState := initState 5

/-- `sInit` with the re-entrancy guard held, as observed by a callback
running inside a guarded operation. -/
def sLocked : RState := { sInit with locked := true }

/-- After `createWasteBatch("fly_ash", 100, seller 7)` by the admin:
batch `1` is `CREATED` and owned by `7`. -/
def sCreated : RState := exec sInit (.create 5 "fly_ash" 100 7 0)

/-- After `commitToPurchase(1)` by buyer `9`: batch `1` is `COMMITTED`. -/
def sCommitted : RState := exec sCreated (.commit 9 1)

/-- After `transferWasteBatch(1)` by owner `7`: batch `1` is
`TRANSFERRED` to `9`. -/
def sDone : RState := exec sCommitted (.transfer 7 1)

/-- The storage invariant maintained by every reachable state: the guard is
released between calls, the counter is at least `1`, an allocated slot
records its own id, an unallocated slot still holds the zero-value, and
`committedBuyer` is non-zero exactly on `COMMITTED`/`TRANSFERRED` batches. -/
structure Inv (s : RState) : Prop where
  unlocked : s.locked = false
  next_pos : 1 ≤ s.nextBatchId
  alloc_id : ∀ id, allocated s id → (s.wasteBatches id).batchId = id
  unalloc : ∀ id, ¬ allocated s id → s.wasteBatches id = emptyBatch
  buyer_iff : ∀ id, ((s.wasteBatches id).committedBuyer ≠ 0 ↔
      ((s.wasteBatches id).status = .COMMITTED ∨
       (s.wasteBatches id).status = .TRANSFERRED))

theorem inv_init (admin : Nat) : Inv (initState admin) := by
  refine ⟨rfl, le_refl 1, ?_, ?_, ?_⟩
  · intro id hid
    obtain ⟨h1, h2⟩ := hid
    simp only [initState] at h2
    omega
  · intro id _; rfl
  · intro id
    simp [initState, emptyBatch]

/-- A slot whose stored `batchId` is non-zero is allocated. -/
theorem stored_ne_zero_allocated {s : RState} (hs : Inv s) {id : Nat}
    (h : (s.wasteBatches id).batchId ≠ 0) : allocated s id := by
  by_contra hna
  exact h (by rw [hs.unalloc id hna]; rfl)

/-- Flat evaluation of `createWasteBatch` as a chain of guards. -/
theorem createWasteBatch_eq (c : Nat) (cat : String) (q sel t : Nat)
    (s : RState) :
    createWasteBatch c cat q sel t s =
      if c ≠ s.owner then .error .AuthorizationError
      else if ¬ q > 0 then .error .InvalidQuantityError
      else if sel = 0 then .error .InvalidAddressError
      else .ok (s.nextBatchId, createSucc cat q sel t s) := by
  unfold createWasteBatch createSucc
  rfl

/-- Flat evaluation of `commitToPurchase` as a chain of guards. -/
theorem commitToPurchase_eq (caller batchId : Nat) (s : RState) :
    commitToPurchase caller batchId s =
      if s.locked then .error .ReentrancyError
      else if (s.wasteBatches batchId).batchId = 0 then
        .error .NotFoundError
      else if (s.wasteBatches batchId).status ≠ .CREATED then
        .error .InvalidStateError
      else if caller = (s.wasteBatches batchId).currentOwner then
        .error .SelfDealingError
      else .ok (commitSucc caller batchId s) := by
  unfold commitToPurchase nonReentrant commitBody commitSucc
  by_cases hl : s.locked
  · simp [hl]
  · simp only [hl, if_false]
    by_cases h1 : (s.wasteBatches batchId).batchId = 0
    · simp [h1]
    · simp only [h1, if_neg, if_false]
      by_cases h2 : (s.wasteBatches batchId).status = .CREATED
      · simp only [h2, ne_eq, not_true_eq_false, if_false, if_neg]
        by_cases h3 : caller = (s.wasteBatches batchId).currentOwner
        · simp [h3]
        · simp [h3]
      · simp [h2]

/-- Flat evaluation of `transferWasteBatch` as a chain of guards. -/
theorem transferWasteBatch_eq (caller batchId : Nat) (s : RState) :
    transferWasteBatch caller batchId s =
      if s.locked then .error .ReentrancyError
      else if (s.wasteBatches batchId).batchId = 0 then
        .error .NotFoundError
      else if (s.wasteBatches batchId).status ≠ .COMMITTED then
        .error .InvalidStateError
      else if caller ≠ (s.wasteBatches batchId).currentOwner then
        .error .AuthorizationError
      else if (s.wasteBatches batchId).committedBuyer = 0 then
        .error .MissingBuyerError
      else .ok (transferSucc batchId s) := by
  unfold transferWasteBatch nonReentrant transferBody transferSucc
  by_cases hl : s.locked
  · simp [hl]
  · simp only [hl, if_false]
    by_cases h1 : (s.wasteBatches batchId).batchId = 0
    · simp [h1]
    · simp only [h1, if_neg, if_false]
      by_cases h2 : (s.wasteBatches batchId).status = .COMMITTED
      · simp only [h2, ne_eq, not_true_eq_false, if_false, if_neg]
        by_cases h3 : caller = (s.wasteBatches batchId).currentOwner
        · simp only [h3, ne_eq, not_true_eq_false, if_false, if_neg]
          by_cases h4 : (s.wasteBatches batchId).committedBuyer = 0
          · simp [h4]
          · simp [h4]
        · simp [h3]
      · simp [h2]

theorem inv_create {s : RState} (hs : Inv s) {c : Nat} {cat : String}
    {q sel t : Nat} {id : Nat} {s' : RState}
    (h : createWasteBatch c cat q sel t s = .ok (id, s')) : Inv s' := by
  rw [createWasteBatch_eq] at h
  split_ifs at h with h1 h2 h3
  simp only [Except.ok.injEq, Prod.mk.injEq] at h
  obtain ⟨hid, hs'⟩ := h
  subst hs'
  refine ⟨hs.unlocked, ?_, ?_, ?_, ?_⟩
  · exact le_trans hs.next_pos (Nat.le_succ _)
  · intro j hj
    obtain ⟨hj1, hj2⟩ := hj
    simp only [createSucc] at hj2 ⊢
    by_cases hje : j = s.nextBatchId
    · subst hje; simp
    · simp only [hje, if_false]
      exact hs.alloc_id j ⟨hj1, by omega⟩
  · intro j hj
    simp only [allocated, createSucc, not_and, not_lt] at hj ⊢
    have hj' : ¬ allocated s j := by
      simp only [allocated, not_and, not_lt]
      intro h1j
      have := hj h1j
      omega
    have hje : j ≠ s.nextBatchId := by
      intro he
      subst he
      have := hj hs.next_pos
      omega
    simp only [hje, if_false]
    exact hs.unalloc j hj'
  · intro j
    simp only [createSucc]
    by_cases hje : j = s.nextBatchId
    · subst hje; simp
    · simp only [hje, if_false]
      exact hs.buyer_iff j

theorem inv_commit {s : RState} (hs : Inv s) {c id : Nat} {s' : RState}
    (hc : c ≠ 0) (h : commitToPurchase c id s = .ok s') : Inv s' := by
  rw [commitToPurchase_eq] at h
  split_ifs at h with h1 h2 h3 h4
  simp only [Except.ok.injEq] at h
  subst h
  rw [not_ne_iff] at h3
  refine ⟨rfl, hs.next_pos, ?_, ?_, ?_⟩
  · intro j hj
    obtain ⟨hj1, hj2⟩ := hj
    simp only [commitSucc] at hj2 ⊢
    by_cases hje : j = id
    · subst hje
      simp only [if_pos rfl]
      exact hs.alloc_id j ⟨hj1, hj2⟩
    · simp only [hje, if_false]
      exact hs.alloc_id j ⟨hj1, hj2⟩
  · intro j hj
    simp only [allocated, commitSucc, not_and, not_lt] at hj ⊢
    have hj' : ¬ allocated s j := by
      simp only [allocated, not_and, not_lt]; exact hj
    by_cases hje : j = id
    · subst hje
      exact absurd (by rw [hs.unalloc j hj']; rfl) h2
    · simp only [hje, if_false]
      exact hs.unalloc j hj'
  · intro j
    simp only [commitSucc]
    by_cases hje : j = id
    · subst hje; simp [hc]
    · simp only [hje, if_false]
      exact hs.buyer_iff j

theorem inv_transfer {s : RState} (hs : Inv s) {c id : Nat} {s' : RState}
    (h : transferWasteBatch c id s = .ok s') : Inv s' := by
  rw [transferWasteBatch_eq] at h
  split_ifs at h with h1 h2 h3 h4 h5
  simp only [Except.ok.injEq] at h
  subst h
  refine ⟨rfl, hs.next_pos, ?_, ?_, ?_⟩
  · intro j hj
    obtain ⟨hj1, hj2⟩ := hj
    simp only [transferSucc] at hj2 ⊢
    by_cases hje : j = id
    · subst hje
      simp only [if_pos rfl]
      exact hs.alloc_id j ⟨hj1, hj2⟩
    · simp only [hje, if_false]
      exact hs.alloc_id j ⟨hj1, hj2⟩
  · intro j hj
    simp only [allocated, transferSucc, not_and, not_lt] at hj ⊢
    have hj' : ¬ allocated s j := by
      simp only [allocated, not_and, not_lt]; exact hj
    by_cases hje : j = id
    · subst hje
      exact absurd (by rw [hs.unalloc j hj']; rfl) h2
    · simp only [hje, if_false]
      exact hs.unalloc j hj'
  · intro j
    simp only [transferSucc]
    by_cases hje : j = id
    · subst hje
      simp only [if_pos rfl]
      constructor
      · intro _; right; rfl
      · intro _; exact h5
    · simp only [hje, if_false]
      exact hs.buyer_iff j

theorem inv_exec {s : RState} (hs : Inv s) (op : Op) (hc : op.caller ≠ 0) :
    Inv (exec s op) := by
  unfold exec
  cases hop : applyOp op s with
  | error e => exact hs
  | ok s' =>
    cases op with
    | create c cat q sel t =>
      simp only [applyOp, Except.map] at hop
      revert hop
      cases hcr : createWasteBatch c cat q sel t s with
      | error e => intro hop; exact absurd hop (by simp)
      | ok p =>
        intro hop
        simp only [Except.ok.injEq] at hop
        subst hop
        exact inv_create hs (show _ = Except.ok (p.1, p.2) from hcr)
    | commit c id =>
      simp only [applyOp] at hop
      exact inv_commit hs hc hop
    | transfer c id =>
      simp only [applyOp] at hop
      exact inv_transfer hs hop

theorem inv_reachable {admin : Nat} {s : RState} (h : Reachable admin s) :
    Inv s := by
  induction h with
  | init => exact inv_init admin
  | step s op _ hc ih => exact inv_exec ih op hc

/-- `exec` of a `create` call as a flat guard chain. -/
theorem exec_create_eq (c : Nat) (cat : String) (q sel t : Nat)
    (s : RState) :
    exec s (.create c cat q sel t) =
      if c ≠ s.owner then s
      else if ¬ q > 0 then s
      else if sel = 0 then s
      else createSucc cat q sel t s := by
  simp only [exec, applyOp]
  rw [createWasteBatch_eq]
  split_ifs <;> rfl

/-- `exec` of a `commit` call as a flat guard chain. -/
theorem exec_commit_eq (c bid : Nat) (s : RState) :
    exec s (.commit c bid) =
      if s.locked then s
      else if (s.wasteBatches bid).batchId = 0 then s
      else if (s.wasteBatches bid).status ≠ .CREATED then s
      else if c = (s.wasteBatches bid).currentOwner then s
      else commitSucc c bid s := by
  simp only [exec, applyOp]
  rw [commitToPurchase_eq]
  split_ifs <;> rfl

/-- `exec` of a `transfer` call as a flat guard chain. -/
theorem exec_transfer_eq (c bid : Nat) (s : RState) :
    exec s (.transfer c bid) =
      if s.locked then s
      else if (s.wasteBatches bid).batchId = 0 then s
      else if (s.wasteBatches bid).status ≠ .COMMITTED then s
      else if c ≠ (s.wasteBatches bid).currentOwner then s
      else if (s.wasteBatches bid).committedBuyer = 0 then s
      else transferSucc bid s := by
  simp only [exec, applyOp]
  rw [transferWasteBatch_eq]
  split_ifs <;> rfl

/-- A single call moves every batch's status only along
`CREATED → COMMITTED → TRANSFERRED`, one edge at a time. -/
theorem status_forward {s : RState} (hs : Inv s) (op : Op) (id : Nat) :
    ((exec s op).wasteBatches id).status = (s.wasteBatches id).status ∨
    ((s.wasteBatches id).status = .CREATED ∧
      ((exec s op).wasteBatches id).status = .COMMITTED) ∨
    ((s.wasteBatches id).status = .COMMITTED ∧
      ((exec s op).wasteBatches id).status = .TRANSFERRED) := by
  cases op with
  | create c cat q sel t =>
    rw [exec_create_eq]
    by_cases h1 : c ≠ s.owner
    · rw [if_pos h1]; left; rfl
    rw [if_neg h1]
    by_cases h2 : ¬ q > 0
    · rw [if_pos h2]; left; rfl
    rw [if_neg h2]
    by_cases h3 : sel = 0
    · rw [if_pos h3]; left; rfl
    rw [if_neg h3]
    by_cases hid : id = s.nextBatchId
    · left
      have hna : ¬ allocated s id := by
        simp only [allocated, not_and, not_lt]; omega
      rw [hs.unalloc id hna]
      simp [createSucc, hid, emptyBatch]
    · left
      simp [createSucc, hid]
  | commit c bid =>
    rw [exec_commit_eq]
    split_ifs with h1 h2 h3 h4
    · left; rfl
    · left; rfl
    · left; rfl
    · left; rfl
    · by_cases hid : id = bid
      · subst hid
        right; left
        rw [not_ne_iff] at h3
        exact ⟨h3, by simp [commitSucc]⟩
      · left
        simp [commitSucc, hid]
  | transfer c bid =>
    rw [exec_transfer_eq]
    split_ifs with h1 h2 h3 h4 h5
    · left; rfl
    · left; rfl
    · left; rfl
    · left; rfl
    · left; rfl
    · by_cases hid : id = bid
      · subst hid
        right; right
        rw [not_ne_iff] at h3
        exact ⟨h3, by simp [transferSucc]⟩
      · left
        simp [transferSucc, hid]

/-- On a state satisfying the invariant, the defensive buyer check inside
`transferWasteBatch` is never the failing check. -/
theorem transfer_no_missing_buyer {s : RState} (hs : Inv s)
    (caller id : Nat) :
    transferWasteBatch caller id s ≠ .error .MissingBuyerError := by
  rw [transferWasteBatch_eq]
  split_ifs with h1 h2 h3 h4 h5
  · simp
  · simp
  · simp
  · simp
  · rw [not_ne_iff] at h3
    exact absurd h5 ((hs.buyer_iff id).mpr (Or.inl h3))
  · simp

theorem reach_sInit : Reachable 5 sInit := Reachable.init

theorem reach_sCreated : Reachable 5 sCreated :=
  Reachable.step sInit (.create 5 "fly_ash" 100 7 0) reach_sInit
    (by decide)

theorem reach_sCommitted : Reachable 5 sCommitted :=
  Reachable.step sCreated (.commit 9 1) reach_sCreated (by decide)

theorem reach_sDone : Reachable 5 sDone :=
  Reachable.step sCommitted (.transfer 7 1) reach_sCommitted (by decide)

/-- C1: in every reachable registry state, `committedBuyer` is non-zero
exactly when the status is `COMMITTED` or `TRANSFERRED`; a single call
moves each batch's status only forward along
`CREATED → COMMITTED → TRANSFERRED`; and the defensive buyer check inside
`transferWasteBatch` is never the failing check. -/
theorem C1_lifecycle_invariant (admin : Nat) (s : RState)
    (h : Reachable admin s) :
    (∀ id, ((s.wasteBatches id).committedBuyer ≠ 0 ↔
      ((s.wasteBatches id).status = .COMMITTED ∨
       (s.wasteBatches id).status = .TRANSFERRED))) ∧
    (∀ op id,
      ((exec s op).wasteBatches id).status = (s.wasteBatches id).status ∨
      ((s.wasteBatches id).status = .CREATED ∧
        ((exec s op).wasteBatches id).status = .COMMITTED) ∨
      ((s.wasteBatches id).status = .COMMITTED ∧
        ((exec s op).wasteBatches id).status = .TRANSFERRED)) ∧
    (∀ caller batchId,
      transferWasteBatch caller batchId s ≠ .error .MissingBuyerError) := by
  have hs := inv_reachable h
  exact ⟨hs.buyer_iff, fun op id => status_forward hs op id,
    fun caller batchId => transfer_no_missing_buyer hs caller batchId⟩

/-- C1 instantiated on the concrete reachable committed state. -/
theorem C1_lifecycle_invariant_witness :
    ((sCommitted.wasteBatches 1).committedBuyer ≠ 0 ↔
      ((sCommitted.wasteBatches 1).status = .COMMITTED ∨
       (sCommitted.wasteBatches 1).status = .TRANSFERRED)) ∧
    transferWasteBatch 9 1 sCommitted ≠ .error .MissingBuyerError :=
  ⟨(C1_lifecycle_invariant 5 sCommitted reach_sCommitted).1 1,
   (C1_lifecycle_invariant 5 sCommitted reach_sCommitted).2.2 9 1⟩

/-- C2: from any reachable state with a `COMMITTED` batch, a transfer by
the current owner succeeds, the batch then shows the committed buyer as
owner and status `TRANSFERRED`, and every further commit or transfer on
that batch fails with `InvalidStateError`. -/
theorem C2_finalize_transfer (admin : Nat) (s : RState)
    (h : Reachable admin s) (id B O : Nat)
    (hst : (s.wasteBatches id).status = .COMMITTED)
    (hB : (s.wasteBatches id).committedBuyer = B)
    (hO : (s.wasteBatches id).currentOwner = O) :
    ∃ s', transferWasteBatch O id s = .ok s' ∧
      (∃ b, getWasteBatch id s' = .ok b ∧
        b.currentOwner = B ∧ b.status = .TRANSFERRED) ∧
      (∀ c, commitToPurchase c id s' = .error .InvalidStateError) ∧
      (∀ c, transferWasteBatch c id s' = .error .InvalidStateError) := by
  have hs := inv_reachable h
  subst hB
  subst hO
  have halloc : allocated s id := by
    by_contra hna
    rw [hs.unalloc id hna] at hst
    exact absurd hst (by simp [emptyBatch])
  have hbid : (s.wasteBatches id).batchId ≠ 0 := by
    rw [hs.alloc_id id halloc]
    have := halloc.1
    omega
  have hbuyer : (s.wasteBatches id).committedBuyer ≠ 0 :=
    (hs.buyer_iff id).mpr (Or.inl hst)
  refine ⟨transferSucc id s, ?_, ?_, ?_, ?_⟩
  · rw [transferWasteBatch_eq]
    simp [hs.unlocked, hbid, hst, hbuyer]
  · refine ⟨(transferSucc id s).wasteBatches id, ?_, ?_, ?_⟩
    · have hb : ((transferSucc id s).wasteBatches id).batchId ≠ 0 := by
        simp only [transferSucc, if_pos]
        exact hbid
      unfold getWasteBatch
      rw [if_neg hb]
    · simp [transferSucc]
    · simp [transferSucc]
  · intro c
    rw [commitToPurchase_eq]
    simp [transferSucc, hbid]
  · intro c
    rw [transferWasteBatch_eq]
    simp [transferSucc, hbid]

/-- C2 instantiated on the concrete reachable committed state. -/
theorem C2_finalize_transfer_witness :
    (sCommitted.wasteBatches 1).status = .COMMITTED ∧
    (sCommitted.wasteBatches 1).committedBuyer = 9 ∧
    (sCommitted.wasteBatches 1).currentOwner = 7 ∧
    (∃ s', transferWasteBatch 7 1 sCommitted = .ok s' ∧
      (∃ b, getWasteBatch 1 s' = .ok b ∧
        b.currentOwner = 9 ∧ b.status = .TRANSFERRED) ∧
      (∀ c, commitToPurchase c 1 s' = .error .InvalidStateError) ∧
      (∀ c, transferWasteBatch c 1 s' = .error .InvalidStateError)) :=
  ⟨by decide, by decide, by decide,
   C2_finalize_transfer 5 sCommitted reach_sCommitted 1 9 7
     (by decide) (by decide) (by decide)⟩

/-- C3: on any quiescent state with an existing `CREATED` batch whose owner
differs from `B`, a commit by `B` succeeds, the batch then shows status
`COMMITTED` and buyer `B`, and every second commit fails with
`InvalidStateError` leaving the buyer equal to `B`. -/
theorem C3_commit (s : RState) (id B : Nat)
    (hlk : s.locked = false)
    (hex : (s.wasteBatches id).batchId ≠ 0)
    (hst : (s.wasteBatches id).status = .CREATED)
    (hB : B ≠ (s.wasteBatches id).currentOwner) :
    ∃ s', commitToPurchase B id s = .ok s' ∧
      (∃ b, getWasteBatch id s' = .ok b ∧
        b.status = .COMMITTED ∧ b.committedBuyer = B) ∧
      (∀ c, commitToPurchase c id s' = .error .InvalidStateError ∧
        exec s' (Op.commit c id) = s' ∧
        (s'.wasteBatches id).committedBuyer = B) := by
  refine ⟨commitSucc B id s, ?_, ?_, ?_⟩
  · rw [commitToPurchase_eq]
    simp [hlk, hex, hst, hB]
  · refine ⟨(commitSucc B id s).wasteBatches id, ?_, ?_, ?_⟩
    · have hb : ((commitSucc B id s).wasteBatches id).batchId ≠ 0 := by
        simp only [commitSucc, if_pos]
        exact hex
      unfold getWasteBatch
      rw [if_neg hb]
    · simp [commitSucc]
    · simp [commitSucc]
  · intro c
    refine ⟨?_, ?_, ?_⟩
    · rw [commitToPurchase_eq]
      simp [commitSucc, hex]
    · rw [exec_commit_eq]
      simp [commitSucc, hex]
    · simp [commitSucc]

/-- C3 instantiated on the concrete created state. -/
theorem C3_commit_witness :
    sCreated.locked = false ∧
    (sCreated.wasteBatches 1).batchId ≠ 0 ∧
    (sCreated.wasteBatches 1).status = .CREATED ∧
    9 ≠ (sCreated.wasteBatches 1).currentOwner ∧
    (∃ s', commitToPurchase 9 1 sCreated = .ok s' ∧
      (∃ b, getWasteBatch 1 s' = .ok b ∧
        b.status = .COMMITTED ∧ b.committedBuyer = 9) ∧
      (∀ c, commitToPurchase c 1 s' = .error .InvalidStateError ∧
        exec s' (Op.commit c 1) = s' ∧
        (s'.wasteBatches 1).committedBuyer = 9)) :=
  ⟨rfl, by decide, by decide, by decide,
   C3_commit sCreated 1 9 rfl (by decide) (by decide) (by decide)⟩

/-- C4: a successful `createWasteBatch` returns the current counter value:
every previously assigned id is strictly below it and (unless it is the
first id, `1`) the id directly below it is assigned; the counter advances
by exactly `1`. -/
theorem C4_sequential_ids (admin : Nat) (s : RState) (h : Reachable admin s)
    (c : Nat) (cat : String) (q sel t id : Nat) (s' : RState)
    (hok : createWasteBatch c cat q sel t s = .ok (id, s')) :
    id = s.nextBatchId ∧ s'.nextBatchId = id + 1 ∧
    (∀ j, (s.wasteBatches j).batchId ≠ 0 → j < id) ∧
    (id = 1 ∨ (1 ≤ id - 1 ∧ (s.wasteBatches (id - 1)).batchId = id - 1)) := by
  have hs := inv_reachable h
  rw [createWasteBatch_eq] at hok
  by_cases h1 : c ≠ s.owner
  · rw [if_pos h1] at hok; exact absurd hok (by simp)
  rw [if_neg h1] at hok
  by_cases h2 : ¬ q > 0
  · rw [if_pos h2] at hok; exact absurd hok (by simp)
  rw [if_neg h2] at hok
  by_cases h3 : sel = 0
  · rw [if_pos h3] at hok; exact absurd hok (by simp)
  rw [if_neg h3] at hok
  simp only [Except.ok.injEq, Prod.mk.injEq] at hok
  obtain ⟨hid, hs'⟩ := hok
  subst hid
  subst hs'
  refine ⟨rfl, rfl, ?_, ?_⟩
  · intro j hj
    exact (stored_ne_zero_allocated hs hj).2
  · have hp := hs.next_pos
    by_cases hone : s.nextBatchId = 1
    · left; exact hone
    · right
      have ha : allocated s (s.nextBatchId - 1) :=
        ⟨by omega, by omega⟩
      exact ⟨by omega, hs.alloc_id _ ha⟩

/-- C4 instantiated on the first creation from the deployment state. -/
theorem C4_sequential_ids_witness :
    createWasteBatch 5 "fly_ash" 100 7 0 sInit =
      .ok (1, createSucc "fly_ash" 100 7 0 sInit) ∧
    (1 = sInit.nextBatchId ∧
      (createSucc "fly_ash" 100 7 0 sInit).nextBatchId = 1 + 1 ∧
      (∀ j, (sInit.wasteBatches j).batchId ≠ 0 → j < 1) ∧
      (1 = 1 ∨ (1 ≤ 1 - 1 ∧
        (sInit.wasteBatches (1 - 1)).batchId = 1 - 1))) :=
  ⟨rfl, C4_sequential_ids 5 sInit reach_sInit 5 "fly_ash" 100 7 0 1
    (createSucc "fly_ash" 100 7 0 sInit) rfl⟩

/-- C5 counterexample: on the reachable state `sCreated`, batch `1` exists
and caller `9` is not its owner, yet `transferWasteBatch` fails with
`InvalidStateError` — not `AuthorizationError` as the claim states —
because the status check runs before the owner check. -/
theorem C5_counterexample :
    Reachable 5 sCreated ∧
    (sCreated.wasteBatches 1).batchId ≠ 0 ∧
    9 ≠ (sCreated.wasteBatches 1).currentOwner ∧
    transferWasteBatch 9 1 sCreated = .error .InvalidStateError ∧
    transferWasteBatch 9 1 sCreated ≠ .error .AuthorizationError := by
  refine ⟨reach_sCreated, by decide, by decide, rfl, ?_⟩
  have h1 : transferWasteBatch 9 1 sCreated = .error .InvalidStateError :=
    rfl
  intro hc
  rw [h1] at hc
  exact absurd (Except.error.inj hc) (by decide)

/-- C5 (amended): for every existing batch in status `COMMITTED`, a
transfer by a caller other than the current owner fails with
`AuthorizationError` and leaves the state unchanged. -/
theorem C5_amended_nonowner (s : RState) (id caller : Nat)
    (hlk : s.locked = false)
    (hex : (s.wasteBatches id).batchId ≠ 0)
    (hst : (s.wasteBatches id).status = .COMMITTED)
    (hc : caller ≠ (s.wasteBatches id).currentOwner) :
    transferWasteBatch caller id s = .error .AuthorizationError ∧
    exec s (Op.transfer caller id) = s := by
  constructor
  · rw [transferWasteBatch_eq]
    simp [hlk, hex, hst, hc]
  · rw [exec_transfer_eq]
    simp [hlk, hex, hst, hc]

/-- C5 (amended) instantiated on the concrete committed state. -/
theorem C5_amended_nonowner_witness :
    sCommitted.locked = false ∧
    (sCommitted.wasteBatches 1).batchId ≠ 0 ∧
    (sCommitted.wasteBatches 1).status = .COMMITTED ∧
    11 ≠ (sCommitted.wasteBatches 1).currentOwner ∧
    (transferWasteBatch 11 1 sCommitted = .error .AuthorizationError ∧
      exec sCommitted (Op.transfer 11 1) = sCommitted) :=
  ⟨rfl, by decide, by decide, by decide,
   C5_amended_nonowner sCommitted 1 11 rfl (by decide) (by decide)
     (by decide)⟩

/-- C6: `createWasteBatch` rejects, without mutating state, a non-admin
caller (`AuthorizationError`), a zero quantity (`InvalidQuantityError`;
the quantity is a `uint256`, so a negative quantity is not representable)
and a zero seller (`InvalidAddressError`); with the other preconditions
met it succeeds for quantity `1`. -/
theorem C6_create_validation (s : RState) (c : Nat) (cat : String)
    (q sel t : Nat) :
    (c ≠ s.owner →
      createWasteBatch c cat q sel t s = .error .AuthorizationError ∧
      exec s (Op.create c cat q sel t) = s) ∧
    (c = s.owner → q = 0 →
      createWasteBatch c cat q sel t s = .error .InvalidQuantityError ∧
      exec s (Op.create c cat q sel t) = s) ∧
    (c = s.owner → 0 < q → sel = 0 →
      createWasteBatch c cat q sel t s = .error .InvalidAddressError ∧
      exec s (Op.create c cat q sel t) = s) ∧
    (c = s.owner → sel ≠ 0 →
      createWasteBatch c cat 1 sel t s =
        .ok (s.nextBatchId, createSucc cat 1 sel t s)) := by
  refine ⟨?_, ?_, ?_, ?_⟩
  · intro h1
    constructor
    · rw [createWasteBatch_eq]; simp [h1]
    · rw [exec_create_eq]; simp [h1]
  · intro h1 h2
    constructor
    · rw [createWasteBatch_eq]; simp [h1, h2]
    · rw [exec_create_eq]; simp [h1, h2]
  · intro h1 h2 h3
    constructor
    · rw [createWasteBatch_eq]; simp [h1, h2, h3]
    · rw [exec_create_eq]; simp [h1, h2, h3]
  · intro h1 h4
    rw [createWasteBatch_eq]
    simp [h1, h4]

/-- C6 instantiated: each rejection and the quantity-`1` success, on the
deployment state (admin `5`). -/
theorem C6_create_validation_witness :
    createWasteBatch 4 "glass" 100 7 0 sInit = .error .AuthorizationError ∧
    createWasteBatch 5 "glass" 0 7 0 sInit = .error .InvalidQuantityError ∧
    createWasteBatch 5 "glass" 100 0 0 sInit = .error .InvalidAddressError ∧
    createWasteBatch 5 "glass" 1 7 0 sInit =
      .ok (sInit.nextBatchId, createSucc "glass" 1 7 0 sInit) :=
  ⟨((C6_create_validation sInit 4 "glass" 100 7 0).1 (by decide)).1,
   ((C6_create_validation sInit 5 "glass" 0 7 0).2.1 rfl rfl).1,
   ((C6_create_validation sInit 5 "glass" 100 0 0).2.2.1 rfl
     (by decide) rfl).1,
   (C6_create_validation sInit 5 "glass" 100 7 0).2.2.2 rfl (by decide)⟩

/-- C7: every failed call leaves the registry state (mapping, counter,
owner and guard flag) exactly as it was: a revert rolls back the call. -/
theorem C7_atomicity (s : RState) (op : Op) (e : Err)
    (h : applyOp op s = .error e) : exec s op = s := by
  unfold exec
  rw [h]

/-- C7 instantiated on a rejected non-admin creation. -/
theorem C7_atomicity_witness :
    applyOp (Op.create 4 "glass" 10 7 0) sInit =
      .error .AuthorizationError ∧
    exec sInit (Op.create 4 "glass" 10 7 0) = sInit :=
  ⟨rfl, C7_atomicity sInit (Op.create 4 "glass" 10 7 0)
    .AuthorizationError rfl⟩

/-- C8: in every reachable state `getWasteBatch 0` fails with
`NotFoundError` — slot `0` is never written, so `0` is a permanent
does-not-exist sentinel.  The view itself is a pure function of the state
and cannot mutate it by construction. -/
theorem C8_get_zero (admin : Nat) (s : RState) (h : Reachable admin s) :
    getWasteBatch 0 s = .error .NotFoundError := by
  have hs := inv_reachable h
  have h0 : ¬ allocated s 0 := by simp [allocated]
  unfold getWasteBatch
  rw [hs.unalloc 0 h0]
  rfl

/-- C8 instantiated on the concrete fully-transferred state. -/
theorem C8_get_zero_witness :
    getWasteBatch 0 sDone = .error .NotFoundError :=
  C8_get_zero 5 sDone reach_sDone

/-- C9: while a guarded operation is in flight the `ReentrancyGuard` flag
is set (`nonReentrant` runs its body on the locked state), and any nested
invocation of a guarded operation on such a state fails fast with
`ReentrancyError` instead of interleaving. -/
theorem C9_reentrancy (s : RState) (c1 id1 c2 id2 : Nat)
    (hl : s.locked = true) :
    commitToPurchase c1 id1 s = .error .ReentrancyError ∧
    transferWasteBatch c2 id2 s = .error .ReentrancyError := by
  constructor
  · rw [commitToPurchase_eq]; simp [hl]
  · rw [transferWasteBatch_eq]; simp [hl]

/-- C9 instantiated on the locked deployment state. -/
theorem C9_reentrancy_witness :
    sLocked.locked = true ∧
    commitToPurchase 9 1 sLocked = .error .ReentrancyError ∧
    transferWasteBatch 7 1 sLocked = .error .ReentrancyError :=
  ⟨rfl, (C9_reentrancy sLocked 9 1 7 1 rfl).1,
   (C9_reentrancy sLocked 9 1 7 1 rfl).2⟩

/-- C10: in every reachable state the counter is at least `1`, allocated
slots (ids in `[1, nextBatchId)`) record their own id, unallocated slots
record `0`, and the stored-id-non-zero test used by the operations exactly
decides allocation. -/
theorem C10_storage (admin : Nat) (s : RState) (h : Reachable admin s) :
    1 ≤ s.nextBatchId ∧
    (∀ id, allocated s id → (s.wasteBatches id).batchId = id) ∧
    (∀ id, ¬ allocated s id → (s.wasteBatches id).batchId = 0) ∧
    (∀ id, ((s.wasteBatches id).batchId ≠ 0 ↔ allocated s id)) := by
  have hs := inv_reachable h
  refine ⟨hs.next_pos, hs.alloc_id, ?_, ?_⟩
  · intro id hid
    rw [hs.unalloc id hid]
    rfl
  · intro id
    constructor
    · exact fun hne => stored_ne_zero_allocated hs hne
    · intro ha
      rw [hs.alloc_id id ha]
      have := ha.1
      omega

/-- C10 instantiated on the concrete one-batch state. -/
theorem C10_storage_witness :
    1 ≤ sCreated.nextBatchId ∧
    (sCreated.wasteBatches 1).batchId = 1 ∧
    (sCreated.wasteBatches 2).batchId = 0 ∧
    allocated sCreated 1 :=
  ⟨(C10_storage 5 sCreated reach_sCreated).1,
   (C10_storage 5 sCreated reach_sCreated).2.1 1 (by decide),
   (C10_storage 5 sCreated reach_sCreated).2.2.1 2 (by decide),
   ((C10_storage 5 sCreated reach_sCreated).2.2.2 1).mp (by decide)⟩

end WasteExchange
